import Mathlib

/-!
Verification development for the `janus` process supervisor.

The Rust sources are shallowly embedded: the mutable process table
(`HashMap<String, ManagedProcess>`) becomes an association list, OS child
handles become `Option Unit` (only presence matters), `Instant` timestamps
become `Nat`, and each supervisor operation becomes a pure function that
threads the table explicitly and returns its `Result` together with the
events (logs / spawns / kills) it emits.  Outcomes of OS calls that the
code branches on (spawn success, kill success, child exit codes) are
passed in as parameters.
-/

namespace Janus

/-- `ProcessStatus` from `src/process/mod.rs`. -/
inductive ProcessStatus
  | Running
  | Stopped
  | Failed
  deriving DecidableEq, Repr

/-- `ErrorType` from `src/error/mod.rs`. -/
inductive ErrorType
  | StartFailed
  | AbnormalExit
  | RestartLimited
  | ConfigInvalid
  deriving DecidableEq, Repr

/-- `JanusError` from `src/error/mod.rs` (payloads of the non-string
variants are reduced to their message text). -/
inductive JanusError
  | Io : String → JanusError
  | Config : String → JanusError
  | Process : String → JanusError
  | Signal : String → JanusError
  | Command : String → JanusError
  deriving DecidableEq, Repr

/-- `ErrorHandler::classify_error` from `src/error/handler.rs`:
exit code `0` maps to `AbnormalExit`, anything else to `StartFailed`. -/
def classify_error (exit_code : Int) : ErrorType :=
  if exit_code = 0 then ErrorType.AbnormalExit else ErrorType.StartFailed

/-- `ProcessConfig` from `src/config/mod.rs`; the TOML `env` table becomes
an association list. -/
structure ProcessConfig where
  name : String
  command : String
  args : Option (List String)
  working_dir : Option String
  env : Option (List (String × String))
  auto_restart : Option Bool
  restart_limit : Option Nat
  restart_delay : Option Nat
  deriving DecidableEq, Repr

/-- `GlobalConfig` from `src/config/mod.rs`. -/
structure GlobalConfig where
  working_dir : Option String
  log_level : Option String
  env : Option (List (String × String))
  deriving DecidableEq, Repr

/-- Whitespace as recognised by Rust's `str::trim` (restricted to the
ASCII whitespace characters relevant here). -/
def isWhite (c : Char) : Bool :=
  c = ' ' || c = '\t' || c = '\n' || c = '\r'

/-- Rust's `str::trim`: the string with leading and trailing whitespace
removed, modelled on the character list. -/
def rustTrim (s : String) : String :=
  String.mk (((s.data.dropWhile isWhite).reverse.dropWhile isWhite).reverse)

/-- Loop body of `ConfigManager::validate` from `src/config/manager.rs`:
`seen` is the `HashSet` of names already inserted; for each process the
duplicate-name check runs first, then the empty-command check
(`process.command.trim().is_empty()`). -/
def validateAux (seen : List String) : List ProcessConfig → Except JanusError Unit
  | [] => Except.ok ()
  | p :: rest =>
    if seen.contains p.name then
      Except.error (JanusError.Config ("Duplicate process name: " ++ p.name))
    else if rustTrim p.command = "" then
      Except.error (JanusError.Config ("Empty command for process: " ++ p.name))
    else
      validateAux (p.name :: seen) rest

/-- `ConfigManager::validate` from `src/config/manager.rs`. -/
def validate (procs : List ProcessConfig) : Except JanusError Unit :=
  validateAux [] procs

/-- Exit code of `main` (`src/main.rs`): `Ok` exits `0`, an error return
exits non-zero (modelled as `1`). -/
def exitCodeOf : Except JanusError Unit → Nat
  | Except.ok _ => 0
  | Except.error _ => 1

/-- `ManagedProcess` from `src/process/mod.rs`.  The `tokio::process::Child`
handle is modelled by `Option Unit` (presence only) and `Instant` by `Nat`. -/
structure ManagedProcess where
  name : String
  command : String
  args : List String
  working_dir : Option String
  env : List (String × String)
  auto_restart : Bool
  restart_count : Nat
  restart_limit : Option Nat
  restart_delay : Nat
  status : ProcessStatus
  process : Option Unit
  start_time : Option Nat
  deriving DecidableEq, Repr

/-- The manual `Clone` impl for `ManagedProcess` in `src/process/mod.rs`:
every field is copied except `process`, which is always `None`. -/
def ManagedProcess.clone (p : ManagedProcess) : ManagedProcess :=
  { name := p.name
    command := p.command
    args := p.args
    working_dir := p.working_dir
    env := p.env
    auto_restart := p.auto_restart
    restart_count := p.restart_count
    restart_limit := p.restart_limit
    restart_delay := p.restart_delay
    status := p.status
    process := none
    start_time := p.start_time }

/-- Construction of one record inside `ProcessManager::new`
(`src/process/manager.rs`, lines 26–39): note that `env` is
`config.env.clone().unwrap_or_default()` — the global env is not consulted. -/
def ManagedProcess.ofConfig (config : ProcessConfig) : ManagedProcess :=
  { name := config.name
    command := config.command
    args := config.args.getD []
    env := config.env.getD []
    working_dir := config.working_dir
    auto_restart := config.auto_restart.getD false
    restart_count := 0
    restart_limit := config.restart_limit
    restart_delay := config.restart_delay.getD 1
    status := ProcessStatus.Stopped
    process := none
    start_time := none }

/-- The process table: the `HashMap<String, ManagedProcess>` of
`ProcessManager`, as an association list. -/
abbrev Table := List (String × ManagedProcess)

/-- `ProcessManager::new` (`src/process/manager.rs`): builds the table from
the process configs.  It receives the global config (through
`ConfigManager`) but reads nothing from it. -/
def ProcessManager.new (g : GlobalConfig) (configs : List ProcessConfig) : Table :=
  let _ := g
  configs.map (fun config => (config.name, ManagedProcess.ofConfig config))

/-- Modelled from the spec: `merge(global.env, spec.env)` with per-key
override semantics — every key of the global env not overridden by the
child env, followed by every key of the child env. -/
def mergeEnv (globalEnv childEnv : List (String × String)) : List (String × String) :=
  globalEnv.filter (fun kv => !(childEnv.any (fun kv2 => kv2.1 = kv.1))) ++ childEnv

/-- `format_duration` from `src/cli/status_reporter.rs`: hours (unbounded),
minutes, seconds. -/
def format_duration (total_seconds : Nat) : String :=
  let hours := total_seconds / 3600
  let minutes := (total_seconds % 3600) / 60
  let seconds := total_seconds % 60
  if hours > 0 then
    toString hours ++ "h " ++ toString minutes ++ "m " ++ toString seconds ++ "s"
  else if minutes > 0 then
    toString minutes ++ "m " ++ toString seconds ++ "s"
  else
    toString seconds ++ "s"

/-- Modelled from the spec: the tiered uptime rendering of §4.4 with a
day component ("if ≥1 day, `Dd Hh Mm Ss`; else ≥1 hour, `Hh Mm Ss`; else
≥1 minute, `Mm Ss`; else `Ss`"), in the code's lower-case style. -/
def specFormatDuration (total_seconds : Nat) : String :=
  let days := total_seconds / 86400
  let hours := (total_seconds % 86400) / 3600
  let minutes := (total_seconds % 3600) / 60
  let seconds := total_seconds % 60
  if days > 0 then
    toString days ++ "d " ++ toString hours ++ "h " ++ toString minutes ++ "m "
      ++ toString seconds ++ "s"
  else if hours > 0 then
    toString hours ++ "h " ++ toString minutes ++ "m " ++ toString seconds ++ "s"
  else if minutes > 0 then
    toString minutes ++ "m " ++ toString seconds ++ "s"
  else
    toString seconds ++ "s"

/-- Observable events emitted by the supervisor operations: a log line
(tagged with the process name), a spawn attempt (with the command), or a
kill of a child. -/
inductive Ev
  | log (name content : String)
  | spawnEv (command : String)
  | killEv (name : String)
  deriving DecidableEq, Repr

/-- `self.processes.get(name)` on the table. -/
def lookupProc (tbl : Table) (name : String) : Option ManagedProcess :=
  (tbl.find? (fun e => e.1 = name)).map Prod.snd

/-- In-place update of the named record (`get_process_mut` followed by
field assignments). -/
def updateProc (tbl : Table) (name : String) (f : ManagedProcess → ManagedProcess) :
    Table :=
  tbl.map (fun e => if e.1 = name then (e.1, f e.2) else e)

/-- `ProcessManager::start_process` from `src/process/manager.rs`
(lines 156–314).  `spawnOk` is the outcome of `command.spawn()`, `now` the
value of `Instant::now()`.  Returns the `Result`, the new table and the
emitted events. -/
def start_process (spawnOk : Bool) (now : Nat) (tbl : Table) (name : String) :
    Except JanusError Unit × Table × List Ev :=
  match lookupProc tbl name with
  | none =>
    (Except.error (JanusError.Process ("Process not found: " ++ name)), tbl, [])
  | some p =>
    if p.status = ProcessStatus.Running then
      (Except.ok (), tbl, [Ev.log name "Process already running"])
    else if spawnOk then
      (Except.ok (),
       updateProc tbl name (fun q =>
         { q with process := some ()
                  status := ProcessStatus.Running
                  start_time := some now }),
       [Ev.spawnEv p.command,
        Ev.log name "Process monitoring started",
        Ev.log name "Process started"])
    else
      (Except.error (JanusError.Process "Failed to start process"),
       updateProc tbl name (fun q => { q with status := ProcessStatus.Failed }),
       [Ev.spawnEv p.command, Ev.log name "Failed to start process"])

/-- Per-record body of `ProcessManager::stop_all` (`src/process/manager.rs`,
lines 79–109): a `Running` record with a child handle is killed; on kill
success status becomes `Stopped` and the handle is dropped, on kill failure
the record is left as is.  `start_time` is not touched in either case. -/
def stopAllProc (killOk : Bool) (p : ManagedProcess) : ManagedProcess :=
  if p.status = ProcessStatus.Running then
    match p.process with
    | some _ =>
      if killOk then { p with status := ProcessStatus.Stopped, process := none }
      else p
    | none => p
  else p

/-- `ProcessManager::stop_all`: iterates over the whole table; kill
failures are logged only, the operation itself always returns `Ok`.
`killOk` gives the outcome of `child.kill()` per process name. -/
def stop_all (killOk : String → Bool) (tbl : Table) :
    Except JanusError Unit × Table :=
  (Except.ok (), tbl.map (fun e => (e.1, stopAllProc (killOk e.1) e.2)))

/-- `ProcessManager::restart_process` from `src/process/manager.rs`
(lines 111–154): unknown name errors; a running record with a child handle
is killed first (kill failure aborts with an error, leaving the record
running); then `start_process` runs on the result. -/
def restart_process (killOk spawnOk : Bool) (now : Nat) (tbl : Table) (name : String) :
    Except JanusError Unit × Table × List Ev :=
  match lookupProc tbl name with
  | none =>
    (Except.error (JanusError.Process ("Process not found: " ++ name)), tbl, [])
  | some p =>
    if p.status = ProcessStatus.Running then
      match p.process with
      | some _ =>
        if killOk then
          let tbl1 := updateProc tbl name (fun q =>
            { q with status := ProcessStatus.Stopped, process := none })
          let r := start_process spawnOk now tbl1 name
          (r.1, r.2.1, Ev.killEv name :: Ev.log name "Process stopped for restart" :: r.2.2)
        else
          (Except.error (JanusError.Process "Failed to stop process"), tbl,
           [Ev.killEv name])
      | none => start_process spawnOk now tbl name
    else start_process spawnOk now tbl name

/-- The `process_exists_and_running` check of `CommandParser::cmd_stop_one`
(`src/cli/command_parser.rs`, lines 272–278). -/
def processExistsAndRunning (tbl : Table) (name : String) : Bool :=
  match lookupProc tbl name with
  | some p => decide (p.status = ProcessStatus.Running) && p.process.isSome
  | none => false

/-- `CommandParser::cmd_stop_one` from `src/cli/command_parser.rs`
(lines 268–310).  The third component is the list of lines printed with
`println!`.  When the name is unknown (or the process is not running) the
command prints a message and returns `Ok`. -/
def cmd_stop_one (killOk : Bool) (tbl : Table) (name : String) :
    Except JanusError Unit × Table × List String :=
  if processExistsAndRunning tbl name then
    match lookupProc tbl name with
    | some p =>
      match p.process with
      | some _ =>
        if killOk then
          (Except.ok (),
           updateProc tbl name (fun q =>
             { q with status := ProcessStatus.Stopped, process := none }),
           ["Stopping process: " ++ name, "Process stopped: " ++ name])
        else
          (Except.error (JanusError.Process "Failed to kill process"), tbl,
           ["Stopping process: " ++ name])
      | none =>
        (Except.ok (), tbl,
         ["Stopping process: " ++ name, "Process stopped: " ++ name])
    | none =>
      (Except.error (JanusError.Process ("Process not found: " ++ name)), tbl,
       ["Stopping process: " ++ name])
  else
    (Except.ok (), tbl,
     ["Stopping process: " ++ name, "Process is not running: " ++ name])

/-- The exit-monitor task spawned by `ProcessManager::start_process`
(`src/process/manager.rs`, lines 287–294) — the only monitor in the
compiled crate: `src/process/mod.rs` declares only `manager`, so
`runner.rs` (which holds an auto-restart loop but calls `ProcessManager`
methods that do not exist) is outside the module tree.  The spawned task
captures only the log handler and the process name; it logs one line and
terminates, never observing the child's exit and never touching the
table. -/
def monitor_task (tbl : Table) (name : String) : Table × List Ev :=
  (tbl, [Ev.log name "Process monitoring started"])

/-- Invariant I1 of the spec (§3): `status = Running ⇔ child_handle ≠ ∅ ⇔
start_time ≠ ∅`. -/
def I1 (p : ManagedProcess) : Prop :=
  (p.status = ProcessStatus.Running ↔ p.process.isSome = true) ∧
  (p.status = ProcessStatus.Running ↔ p.start_time.isSome = true)

/-- The part of invariant I1 the code maintains: the status is `Running`
exactly when the child handle is present, and a `Running` record has a
`start_time`; nothing is said about `start_time` of non-`Running` records. -/
def StatusHandleInv (p : ManagedProcess) : Prop :=
  (p.status = ProcessStatus.Running ↔ p.process.isSome = true) ∧
  (p.status = ProcessStatus.Running → p.start_time.isSome = true)

instance (p : ManagedProcess) : Decidable (I1 p) := by
  unfold I1
  infer_instance

instance (p : ManagedProcess) : Decidable (StatusHandleInv p) := by
  unfold StatusHandleInv
  infer_instance

/-- A running record, used as a concrete scenario. -/
def procRunning : ManagedProcess :=
  { name := "web"
    command := "node"
    args := ["server.js"]
    working_dir := none
    env := []
    auto_restart := false
    restart_count := 2
    restart_limit := none
    restart_delay := 1
    status := ProcessStatus.Running
    process := some ()
    start_time := some 5 }

/-- The stopped form of `procRunning` that `stop_all` produces: status
`Stopped`, child handle dropped, `start_time` untouched. -/
def procStopped : ManagedProcess :=
  { procRunning with status := ProcessStatus.Stopped, process := none }

/-- The `[[process]]` block of the spec's auto-restart scenario (§8,
scenario 4): `command = "false"` (immediate nonzero exit),
`auto_restart = true`, `restart_limit = 3`, `restart_delay = 0`. -/
def autoConfig : ProcessConfig :=
  { name := "svc"
    command := "false"
    args := none
    working_dir := none
    env := none
    auto_restart := some true
    restart_limit := some 3
    restart_delay := some 0 }

/-- The table of the auto-restart scenario right after a successful
`start_process` at time 0: the freshly loaded record, now running. -/
def startedTable : Table :=
  (start_process true 0 [("svc", ManagedProcess.ofConfig autoConfig)] "svc").2.1

/-- The global env of the spec's environment-merge scenario (§8,
scenario 6). -/
def globalEnvEx : List (String × String) := [("A", "1"), ("B", "2")]

/-- The child of the spec's environment-merge scenario: child env
`{B="20", C="3"}`. -/
def webConfig : ProcessConfig :=
  { name := "web"
    command := "node"
    args := none
    working_dir := none
    env := some [("B", "20"), ("C", "3")]
    auto_restart := none
    restart_limit := none
    restart_delay := none }

/-- A global config carrying the scenario's global env. -/
def gEx : GlobalConfig :=
  { working_dir := none, log_level := none, env := some globalEnvEx }

/-- First `[[process]]` block of the duplicate-name scenario (§8,
scenario 1). -/
def svcConfig1 : ProcessConfig :=
  { name := "svc"
    command := "cmd1"
    args := none
    working_dir := none
    env := none
    auto_restart := none
    restart_limit := none
    restart_delay := none }

/-- Second `[[process]]` block of the duplicate-name scenario, sharing the
name `svc`. -/
def svcConfig2 : ProcessConfig :=
  { name := "svc"
    command := "cmd2"
    args := none
    working_dir := none
    env := none
    auto_restart := none
    restart_limit := none
    restart_delay := none }

/-- The empty-command scenario (§8, scenario 2): `name="x",
command="   "`. -/
def xConfig : ProcessConfig :=
  { name := "x"
    command := "   "
    args := none
    working_dir := none
    env := none
    auto_restart := none
    restart_limit := none
    restart_delay := none }

/-! ## Theorems -/

/-- C8: exit-outcome classification maps OS exit code 0 to `AbnormalExit`
and every nonzero exit code to `StartFailed`, for all integer exit codes. -/
theorem classify_error_spec :
    classify_error 0 = ErrorType.AbnormalExit ∧
    ∀ c : Int, c ≠ 0 → classify_error c = ErrorType.StartFailed := by
  refine ⟨rfl, ?_⟩
  intro c hc
  simp [classify_error, hc]

/-- Witness for C8 at exit code `7`. -/
theorem classify_error_spec_witness :
    classify_error 7 = ErrorType.StartFailed :=
  classify_error_spec.2 7 (by decide)

/-- C10: `ManagedProcess::clone` copies every field of the record and
always sets the `process` (child handle) field to `None`, in particular
when the original is `Running`. -/
theorem clone_drops_child_handle :
    ∀ p : ManagedProcess, ManagedProcess.clone p = { p with process := none } :=
  fun _ => rfl

/-- C9 counterexample: at 90000 seconds (more than one day) the code
renders `25h 0m 0s`, not the day-tier format `1d 1h 0m 0s` the claim
demands. -/
theorem format_duration_no_day_tier :
    format_duration 90000 = "25h 0m 0s" ∧
    specFormatDuration 90000 = "1d 1h 0m 0s" ∧
    format_duration 90000 ≠ specFormatDuration 90000 := by
  refine ⟨rfl, rfl, ?_⟩
  decide

/-- C9 amended: `format_duration` has exactly three tiers and no day
component: at least one hour renders `"Hh Mm Ss"` with an unbounded hour
count, else at least one minute renders `"Mm Ss"`, else `"Ss"`. -/
theorem format_duration_tiers (ts : Nat) :
    (3600 ≤ ts →
      format_duration ts =
        toString (ts / 3600) ++ "h " ++ toString (ts % 3600 / 60) ++ "m "
          ++ toString (ts % 60) ++ "s") ∧
    (ts < 3600 → 60 ≤ ts →
      format_duration ts =
        toString (ts / 60) ++ "m " ++ toString (ts % 60) ++ "s") ∧
    (ts < 60 → format_duration ts = toString ts ++ "s") := by
  refine ⟨?_, ?_, ?_⟩
  · intro h
    have hh : 0 < ts / 3600 := by omega
    simp [format_duration, hh]
  · intro h1 h2
    have hh : ¬ 0 < ts / 3600 := by omega
    have hmod : ts % 3600 = ts := Nat.mod_eq_of_lt h1
    have hm : 0 < ts / 60 := by omega
    simp [format_duration, hh, hmod, hm]
  · intro h
    have hh : ¬ 0 < ts / 3600 := by omega
    have hm : ¬ 0 < ts % 3600 / 60 := by omega
    have hmod : ts % 60 = ts := Nat.mod_eq_of_lt h
    simp [format_duration, hh, hm, hmod]

/-- Witness for the C9 amended theorem at 3700 seconds. -/
theorem format_duration_tiers_witness :
    format_duration 3700 = "1h 1m 40s" :=
  ((format_duration_tiers 3700).1 (by omega)).trans (by decide)

/-- C5: `start_process` applied to a record whose status is `Running`
returns `Ok`, leaves the whole table (hence the record's status,
start_time, child handle and restart_count) unchanged, logs "already
running" and spawns nothing. -/
theorem start_process_running_noop (spawnOk : Bool) (now : Nat) (tbl : Table)
    (name : String) (p : ManagedProcess)
    (hp : lookupProc tbl name = some p) (hr : p.status = ProcessStatus.Running) :
    start_process spawnOk now tbl name =
      (Except.ok (), tbl, [Ev.log name "Process already running"]) := by
  simp [start_process, hp, hr]

/-- Witness for C5 on a concrete one-record table. -/
theorem start_process_running_noop_witness :
    start_process false 7 [("web", procRunning)] "web" =
      (Except.ok (), [("web", procRunning)], [Ev.log "web" "Process already running"]) :=
  start_process_running_noop false 7 [("web", procRunning)] "web" procRunning
    (by decide) (by decide)

/-- C6 counterexample: `stop-one` on the empty table with the unknown name
`ghost` returns `Ok` (so `main` exits 0) and prints "Process is not
running: ghost" — it does not fail with `ProcessNotFound`. -/
theorem cmd_stop_one_unknown_counterexample :
    (cmd_stop_one true [] "ghost").1 = Except.ok () ∧
    (∀ e : JanusError, (cmd_stop_one true [] "ghost").1 ≠ Except.error e) ∧
    exitCodeOf (cmd_stop_one true [] "ghost").1 = 0 ∧
    (cmd_stop_one true [] "ghost").2.2 =
      ["Stopping process: ghost", "Process is not running: ghost"] := by
  refine ⟨rfl, ?_, rfl, rfl⟩
  intro e h
  exact Except.noConfusion h

/-- C6 amended: the `stop-one` command with a name absent from the table
treats it like a process that is not running: it prints "Process is not
running: <name>", changes nothing, and returns `Ok`, so the program exits
with code 0. -/
theorem cmd_stop_one_unknown (killOk : Bool) (tbl : Table) (name : String)
    (h : lookupProc tbl name = none) :
    cmd_stop_one killOk tbl name =
      (Except.ok (), tbl,
       ["Stopping process: " ++ name, "Process is not running: " ++ name]) ∧
    exitCodeOf (cmd_stop_one killOk tbl name).1 = 0 := by
  have hrun : processExistsAndRunning tbl name = false := by
    simp [processExistsAndRunning, h]
  constructor
  · simp [cmd_stop_one, hrun]
  · simp [cmd_stop_one, hrun, exitCodeOf]

/-- Witness for the C6 amended theorem. -/
theorem cmd_stop_one_unknown_witness :
    cmd_stop_one false [("web", procRunning)] "ghost" =
      (Except.ok (), [("web", procRunning)],
       ["Stopping process: ghost", "Process is not running: ghost"]) :=
  (cmd_stop_one_unknown false [("web", procRunning)] "ghost" (by decide)).1

/-- C2: the environment of a record built by `ProcessManager::new` is the
child-specific env alone; the global env is never merged in, contradicting
both the spec and the program's own `--help` text ("Merged with global
env").  On the spec's scenario (global `{A="1", B="2"}`, child
`{B="20", C="3"}`) the key `A` is missing from the record. -/
theorem env_not_merged :
    lookupProc (ProcessManager.new gEx [webConfig]) "web" =
      some (ManagedProcess.ofConfig webConfig) ∧
    (ManagedProcess.ofConfig webConfig).env = [("B", "20"), ("C", "3")] ∧
    mergeEnv globalEnvEx [("B", "20"), ("C", "3")] =
      [("A", "1"), ("B", "20"), ("C", "3")] ∧
    (ManagedProcess.ofConfig webConfig).env.find? (fun kv => kv.1 = "A") = none ∧
    (mergeEnv globalEnvEx [("B", "20"), ("C", "3")]).find? (fun kv => kv.1 = "A") =
      some ("A", "1") := by
  refine ⟨rfl, rfl, by decide, by decide, by decide⟩

/-- Updating a record with a function that leaves `restart_count` alone
leaves the `restart_count` column of the table alone. -/
theorem updateProc_map_restart_count (tbl : Table) (name : String)
    (f : ManagedProcess → ManagedProcess)
    (hf : ∀ q, (f q).restart_count = q.restart_count) :
    (updateProc tbl name f).map (fun e => (e.1, e.2.restart_count)) =
      tbl.map (fun e => (e.1, e.2.restart_count)) := by
  induction tbl with
  | nil => rfl
  | cons a rest ih =>
    simp only [updateProc, List.map_cons] at ih ⊢
    refine congrArg₂ List.cons ?_ ih
    by_cases ha : a.1 = name
    · simp [ha, hf]
    · simp [ha]

/-- `start_process` never changes any record's `restart_count`. -/
theorem start_process_preserves_restart_count (spawnOk : Bool) (now : Nat)
    (tbl : Table) (name : String) :
    ((start_process spawnOk now tbl name).2.1).map (fun e => (e.1, e.2.restart_count)) =
      tbl.map (fun e => (e.1, e.2.restart_count)) := by
  unfold start_process
  cases h : lookupProc tbl name with
  | none => rfl
  | some p =>
    by_cases hr : p.status = ProcessStatus.Running
    · simp [hr]
    · by_cases hs : spawnOk
      · simpa [hr, hs] using
          updateProc_map_restart_count tbl name
            (fun q => { q with process := some ()
                               status := ProcessStatus.Running
                               start_time := some now })
            (fun q => rfl)
      · simpa [hr, hs] using
          updateProc_map_restart_count tbl name
            (fun q => { q with status := ProcessStatus.Failed })
            (fun q => rfl)

/-- C4: manual restart never changes `restart_count` — after
`restart_process`, every record's `restart_count` (keyed by name, in table
order) equals its value before, whatever the kill and spawn outcomes and
whether or not the process was running. -/
theorem restart_process_preserves_restart_count (killOk spawnOk : Bool)
    (now : Nat) (tbl : Table) (name : String) :
    ((restart_process killOk spawnOk now tbl name).2.1).map
        (fun e => (e.1, e.2.restart_count)) =
      tbl.map (fun e => (e.1, e.2.restart_count)) := by
  unfold restart_process
  cases h : lookupProc tbl name with
  | none => rfl
  | some p =>
    by_cases hr : p.status = ProcessStatus.Running
    · cases hp : p.process with
      | none =>
        simpa [hr, hp] using start_process_preserves_restart_count spawnOk now tbl name
      | some u =>
        by_cases hk : killOk
        · simp only [hr, hp, hk, if_true, if_pos]
          exact (start_process_preserves_restart_count spawnOk now
              (updateProc tbl name (fun q =>
                { q with status := ProcessStatus.Stopped, process := none })) name).trans
            (updateProc_map_restart_count tbl name
              (fun q => { q with status := ProcessStatus.Stopped, process := none })
              (fun q => rfl))
        · simp [hr, hp, hk]
    · simpa [hr] using start_process_preserves_restart_count spawnOk now tbl name

/-- A successful validation pass means: the process names extend the
`seen` set without collisions, and every command is non-empty after
trimming. -/
theorem validateAux_ok (procs : List ProcessConfig) :
    ∀ seen : List String, validateAux seen procs = Except.ok () →
      (procs.map ProcessConfig.name).Nodup ∧
      (∀ p ∈ procs, p.name ∉ seen) ∧
      ∀ p ∈ procs, rustTrim p.command ≠ "" := by
  induction procs with
  | nil => intro seen _; simp
  | cons p rest ih =>
    intro seen h
    unfold validateAux at h
    by_cases hc : p.name ∈ seen
    · simp [hc] at h
    · by_cases ht : rustTrim p.command = ""
      · simp [hc, ht] at h
      · simp [hc, ht] at h
        obtain ⟨hnd, hseen, hcmd⟩ := ih (p.name :: seen) h
        have hpname : p.name ∉ seen := hc
        refine ⟨?_, ?_, ?_⟩
        · rw [List.map_cons, List.nodup_cons]
          refine ⟨?_, hnd⟩
          intro hmem
          obtain ⟨q, hq, hqname⟩ := List.mem_map.mp hmem
          exact (hseen q hq) (by rw [hqname]; exact List.mem_cons_self _ _)
        · intro q hq
          rcases List.mem_cons.mp hq with hq1 | hq2
          · rw [hq1]; exact hpname
          · intro hmem
            exact (hseen q hq2) (List.mem_cons_of_mem _ hmem)
        · intro q hq
          rcases List.mem_cons.mp hq with hq1 | hq2
          · rw [hq1]; exact ht
          · exact hcmd q hq2

/-- Every validation error is either a duplicate-name or an empty-command
`ConfigInvalid`, naming the offending process. -/
theorem validateAux_error_shape (procs : List ProcessConfig) :
    ∀ (seen : List String) (err : JanusError),
      validateAux seen procs = Except.error err →
      ∃ n, err = JanusError.Config ("Duplicate process name: " ++ n) ∨
           err = JanusError.Config ("Empty command for process: " ++ n) := by
  induction procs with
  | nil => intro seen err h; simp [validateAux] at h
  | cons p rest ih =>
    intro seen err h
    unfold validateAux at h
    by_cases hc : p.name ∈ seen
    · simp [hc] at h
      exact ⟨p.name, Or.inl h.symm⟩
    · by_cases ht : rustTrim p.command = ""
      · simp [hc, ht] at h
        exact ⟨p.name, Or.inr h.symm⟩
      · simp [hc, ht] at h
        exact ih (p.name :: seen) err h

/-- C7: configuration validation rejects duplicate process names with
`ConfigInvalid("Duplicate process name: N")` and commands that are empty
after trimming with `ConfigInvalid("Empty command for process: N")`; in
both cases `ConfigManager::new`, and hence supervisor startup, aborts
with an error. -/
theorem validate_spec :
    validate [svcConfig1, svcConfig2] =
      Except.error (JanusError.Config "Duplicate process name: svc") ∧
    validate [xConfig] =
      Except.error (JanusError.Config "Empty command for process: x") ∧
    (∀ procs : List ProcessConfig,
      ¬ (procs.map ProcessConfig.name).Nodup →
        ∃ err, validate procs = Except.error err) ∧
    (∀ procs : List ProcessConfig, ∀ p ∈ procs, rustTrim p.command = "" →
        ∃ err, validate procs = Except.error err) ∧
    (∀ (procs : List ProcessConfig) (err : JanusError),
      validate procs = Except.error err →
      ∃ n, err = JanusError.Config ("Duplicate process name: " ++ n) ∨
           err = JanusError.Config ("Empty command for process: " ++ n)) := by
  refine ⟨rfl, rfl, ?_, ?_, ?_⟩
  · intro procs hnd
    cases h : validate procs with
    | ok u =>
      cases u
      exact absurd (validateAux_ok procs [] h).1 hnd
    | error err => exact ⟨err, rfl⟩
  · intro procs p hp hcmd
    cases h : validate procs with
    | ok u =>
      cases u
      exact absurd hcmd ((validateAux_ok procs [] h).2.2 p hp)
    | error err => exact ⟨err, rfl⟩
  · intro procs err h
    exact validateAux_error_shape procs [] err h

/-- Witness for C7: the duplicate-name config is rejected, so startup
exits non-zero. -/
theorem validate_spec_witness :
    exitCodeOf (validate [svcConfig1, svcConfig2]) = 1 := by
  obtain ⟨err, he⟩ :=
    validate_spec.2.2.1 [svcConfig1, svcConfig2] (by decide)
  rw [he]
  rfl

/-- `updateProc` leaves the key column of the table unchanged. -/
theorem updateProc_keys (tbl : Table) (name : String)
    (f : ManagedProcess → ManagedProcess) :
    (updateProc tbl name f).map Prod.fst = tbl.map Prod.fst := by
  induction tbl with
  | nil => rfl
  | cons a rest ih =>
    simp only [updateProc, List.map_cons] at ih ⊢
    refine congrArg₂ List.cons ?_ ih
    by_cases ha : a.1 = name
    · simp [ha]
    · simp [ha]

/-- A successful lookup returns the value of some entry whose key is the
looked-up name. -/
theorem lookupProc_mem {tbl : Table} {name : String} {p : ManagedProcess}
    (hp : lookupProc tbl name = some p) :
    ∃ e ∈ tbl, e.1 = name ∧ e.2 = p := by
  unfold lookupProc at hp
  cases hf : tbl.find? (fun e => e.1 = name) with
  | none => rw [hf] at hp; simp at hp
  | some e =>
    rw [hf] at hp
    have hp2 : e.2 = p := by simpa using hp
    refine ⟨e, List.mem_of_find?_eq_some hf, ?_, hp2⟩
    have hpred := List.find?_some hf
    simpa using hpred

/-- With distinct keys, every entry carrying the looked-up name holds the
value the lookup returned. -/
theorem lookupProc_unique {tbl : Table} {name : String} {p : ManagedProcess}
    (hkeys : (tbl.map Prod.fst).Nodup) (hp : lookupProc tbl name = some p) :
    ∀ e ∈ tbl, e.1 = name → e.2 = p := by
  induction tbl with
  | nil => intro e he; simp at he
  | cons a rest ih =>
    intro e he hename
    rw [List.map_cons, List.nodup_cons] at hkeys
    by_cases ha : a.1 = name
    · have hpa : a.2 = p := by
        unfold lookupProc at hp
        rw [List.find?_cons_of_pos _ (by simpa using ha)] at hp
        simpa using hp
      rcases List.mem_cons.mp he with rfl | hrest
      · exact hpa
      · exact absurd (List.mem_map.mpr ⟨e, hrest, by rw [hename, ha]⟩) hkeys.1
    · rcases List.mem_cons.mp he with rfl | hrest
      · exact absurd hename ha
      · have hp' : lookupProc rest name = some p := by
          unfold lookupProc at hp ⊢
          rwa [List.find?_cons_of_neg _ (by simpa using ha)] at hp
        exact ih hkeys.2 hp' e hrest hename

/-- `start_process` preserves the status/handle invariant of every record
(given unique keys, invariant I2). -/
theorem start_process_inv (spawnOk : Bool) (now : Nat) (tbl : Table)
    (name : String) (hkeys : (tbl.map Prod.fst).Nodup)
    (hinv : ∀ e ∈ tbl, StatusHandleInv e.2) :
    ∀ e ∈ (start_process spawnOk now tbl name).2.1, StatusHandleInv e.2 := by
  unfold start_process
  cases h : lookupProc tbl name with
  | none => simpa using hinv
  | some p =>
    by_cases hr : p.status = ProcessStatus.Running
    · simpa [hr] using hinv
    · by_cases hs : spawnOk
      · simp only [hr, hs, if_true, if_neg, if_pos, Bool.false_eq_true]
        intro e he
        obtain ⟨e0, he0, rfl⟩ := List.mem_map.mp he
        by_cases h01 : e0.1 = name
        · simp only [h01, if_true, if_pos]
          exact ⟨by simp, by simp⟩
        · simp only [h01, if_false, if_neg, Bool.false_eq_true]
          exact hinv e0 he0
      · simp only [hr, hs, if_false, if_neg, Bool.false_eq_true]
        intro e he
        obtain ⟨e0, he0, rfl⟩ := List.mem_map.mp he
        by_cases h01 : e0.1 = name
        · simp only [h01, if_true, if_pos]
          have hep : e0.2 = p := lookupProc_unique hkeys h e0 he0 h01
          have hpnone : p.process = none := by
            rcases lookupProc_mem h with ⟨e1, he1, _, he1p⟩
            have hpinv : StatusHandleInv p := he1p ▸ hinv e1 he1
            cases hps : p.process with
            | none => rfl
            | some u => exact absurd (hpinv.1.mpr (by simp [hps])) hr
          have hnone : e0.2.process = none := by rw [hep, hpnone]
          refine ⟨⟨?_, ?_⟩, ?_⟩
          · intro hst; exact absurd hst (by simp)
          · intro hps
            simp only [hnone] at hps
            exact absurd hps (by simp)
          · intro hst; exact absurd hst (by simp)
        · simp only [h01, if_false, if_neg, Bool.false_eq_true]
          exact hinv e0 he0

/-- `stopAllProc` preserves the status/handle invariant of one record. -/
theorem stopAllProc_inv (killOk : Bool) {p : ManagedProcess}
    (hp : StatusHandleInv p) : StatusHandleInv (stopAllProc killOk p) := by
  unfold stopAllProc
  by_cases hr : p.status = ProcessStatus.Running
  · cases hc : p.process with
    | none => simpa [hr, hc] using hp
    | some u =>
      by_cases hk : killOk
      · simp only [hr, hc, hk, if_true, if_pos]
        exact ⟨by simp, by simp⟩
      · simpa [hr, hc, hk] using hp
  · simpa [hr] using hp

/-- `stopAllProc` never touches `start_time`. -/
theorem stopAllProc_start_time (killOk : Bool) (p : ManagedProcess) :
    (stopAllProc killOk p).start_time = p.start_time := by
  unfold stopAllProc
  split
  · split
    · split <;> rfl
    · rfl
  · rfl

/-- `cmd_stop_one` preserves the status/handle invariant of every record. -/
theorem cmd_stop_one_inv (killOk : Bool) (tbl : Table) (name : String)
    (hinv : ∀ e ∈ tbl, StatusHandleInv e.2) :
    ∀ e ∈ (cmd_stop_one killOk tbl name).2.1, StatusHandleInv e.2 := by
  unfold cmd_stop_one
  by_cases hrun : processExistsAndRunning tbl name
  · cases h : lookupProc tbl name with
    | none => simpa [hrun, h] using hinv
    | some p =>
      cases hc : p.process with
      | none => simpa [hrun, h, hc] using hinv
      | some u =>
        by_cases hk : killOk
        · simp only [hrun, h, hc, hk, if_true, if_pos]
          intro e he
          obtain ⟨e0, he0, rfl⟩ := List.mem_map.mp he
          by_cases h01 : e0.1 = name
          · simp only [h01, if_true, if_pos]
            exact ⟨by simp, by simp⟩
          · simp only [h01, if_false, if_neg, Bool.false_eq_true]
            exact hinv e0 he0
        · simpa [hrun, h, hc, hk] using hinv
  · simpa [hrun] using hinv

/-- `restart_process` preserves the status/handle invariant of every
record (given unique keys). -/
theorem restart_process_inv (killOk spawnOk : Bool) (now : Nat) (tbl : Table)
    (name : String) (hkeys : (tbl.map Prod.fst).Nodup)
    (hinv : ∀ e ∈ tbl, StatusHandleInv e.2) :
    ∀ e ∈ (restart_process killOk spawnOk now tbl name).2.1, StatusHandleInv e.2 := by
  unfold restart_process
  cases h : lookupProc tbl name with
  | none => simpa using hinv
  | some p =>
    by_cases hr : p.status = ProcessStatus.Running
    · cases hc : p.process with
      | none => simpa [hr, hc] using start_process_inv spawnOk now tbl name hkeys hinv
      | some u =>
        by_cases hk : killOk
        · simp only [hr, hc, hk, if_true, if_pos]
          refine start_process_inv spawnOk now _ name ?_ ?_
          · rw [updateProc_keys]; exact hkeys
          · intro e1 he1
            obtain ⟨e0, he0, rfl⟩ := List.mem_map.mp he1
            by_cases h01 : e0.1 = name
            · simp only [h01, if_true, if_pos]
              exact ⟨by simp, by simp⟩
            · simp only [h01, if_false, if_neg, Bool.false_eq_true]
              exact hinv e0 he0
        · simpa [hr, hc, hk] using hinv
    · simpa [hr] using start_process_inv spawnOk now tbl name hkeys hinv

/-- C3 counterexample: after `stop_all` on a table holding one running
record, the record is `Stopped` with the child handle dropped but with
`start_time` still set — I1's `status = Running ⇔ start_time ≠ ∅`
direction fails, and `start_time` was not cleared when status left
`Running`. -/
theorem stop_all_violates_I1 :
    (stop_all (fun _ => true) [("web", procRunning)]).2 = [("web", procStopped)] ∧
    procStopped.status = ProcessStatus.Stopped ∧
    procStopped.start_time = some 5 ∧
    ¬ I1 procStopped := by
  refine ⟨rfl, rfl, rfl, ?_⟩
  decide

/-- C3 amended: after each supervisor operation (`start_process`,
`stop_all`, `stop-one`, `restart_process`) every record satisfies
`status = Running ⇔ child handle present`, and a `Running` record has a
`start_time`; but `start_time` is not cleared when status leaves
`Running` — the stop path leaves every record's `start_time` unchanged,
so the full I1 (`status = Running ⇔ start_time ≠ ∅`) can fail after a
stop. -/
theorem ops_preserve_status_handle_inv (killOk spawnOk : Bool)
    (killOkF : String → Bool) (now : Nat) (tbl : Table) (name : String)
    (hkeys : (tbl.map Prod.fst).Nodup)
    (hinv : ∀ e ∈ tbl, StatusHandleInv e.2) :
    (∀ e ∈ (start_process spawnOk now tbl name).2.1, StatusHandleInv e.2) ∧
    (∀ e ∈ (stop_all killOkF tbl).2, StatusHandleInv e.2) ∧
    (∀ e ∈ (cmd_stop_one killOk tbl name).2.1, StatusHandleInv e.2) ∧
    (∀ e ∈ (restart_process killOk spawnOk now tbl name).2.1, StatusHandleInv e.2) ∧
    (stop_all killOkF tbl).2.map (fun e => (e.1, e.2.start_time)) =
      tbl.map (fun e => (e.1, e.2.start_time)) := by
  refine ⟨start_process_inv spawnOk now tbl name hkeys hinv, ?_,
    cmd_stop_one_inv killOk tbl name hinv,
    restart_process_inv killOk spawnOk now tbl name hkeys hinv, ?_⟩
  · intro e he
    simp only [stop_all, List.mem_map] at he
    obtain ⟨e0, he0, rfl⟩ := he
    exact stopAllProc_inv (killOkF e0.1) (hinv e0 he0)
  · simp only [stop_all, List.map_map]
    refine List.map_congr_left ?_
    intro e _
    simp [stopAllProc_start_time]

/-- Witness for the C3 amended theorem on a one-record table. -/
theorem ops_preserve_status_handle_inv_witness :
    (stop_all (fun _ => false) [("web", procRunning)]).2.map
        (fun e => (e.1, e.2.start_time)) =
      [("web", procRunning)].map (fun e => (e.1, e.2.start_time)) :=
  (ops_preserve_status_handle_inv true true (fun _ => false) 0
    [("web", procRunning)] "web" (by decide) (by decide)).2.2.2.2

/-- C1: the claimed supervision never happens in the compiled program.
The only monitor task (spawned at `manager.rs:287`) logs one line and
finishes without touching the table, so after `start` of the auto-restart
scenario process (`auto_restart = true`, `restart_limit = 3`,
immediately-exiting command) the record stays `Running` with
`restart_count = 0`: it never reaches `Failed`, never reaches
`restart_count = 3`, and no `RESTART_LIMITED` line is ever produced —
the restart policy the claim describes lives only in the undeclared
`runner.rs`. -/
theorem monitor_task_no_supervision :
    (∀ (tbl : Table) (name : String),
      monitor_task tbl name = (tbl, [Ev.log name "Process monitoring started"])) ∧
    (start_process true 0 [("svc", ManagedProcess.ofConfig autoConfig)] "svc").1 =
      Except.ok () ∧
    (monitor_task startedTable "svc").1 = startedTable ∧
    lookupProc (monitor_task startedTable "svc").1 "svc" =
      some { ManagedProcess.ofConfig autoConfig with
               status := ProcessStatus.Running
               process := some ()
               start_time := some 0 } ∧
    (monitor_task startedTable "svc").1.map (fun e => e.2.status) =
      [ProcessStatus.Running] ∧
    (monitor_task startedTable "svc").1.map (fun e => e.2.restart_count) = [0] :=
  ⟨fun _ _ => rfl, rfl, rfl, rfl, rfl, rfl⟩

end Janus
